import Mathlib

/-!
Verification of the forgetti Optimizer core (packages/forgetti/src/core/optimizer.ts
and the OptimizerScope / simplify-expressions modules) against its specification.

The development is a shallow embedding of the transformation:

* a deep AST for the JavaScript dialect fragment the claims quantify over
  (identifiers, literals, nested/parenthesized wrappers, member access, binary,
  logical, conditional, unary, update, call, assignment expressions; expression
  statements, variable declarations, returns, blocks, if, while and for-of
  statements);
* `OptState`, the mutable state of the pass: a store of `OptimizerScope`
  records addressed by `ScopeId`, the current scope, a fresh-uid counter and
  the `dependency` memo table;
* faithful translations of the `OptimizerScope` methods (`createHeader`,
  `createIndex`, `createLoopHeader`, `createLoopIndex`, the declaration
  builders, `getStatements`, `mergeVariableDeclaration`, the optimized-id
  table and the constants set) and of the `Optimizer` methods (`createMemo`,
  `createDependency`, the per-kind `optimize*` methods and the statement walk),
  written in explicit state-passing style with a fuel parameter bounding call
  depth (the source recursion always terminates on finite ASTs; fuel only
  serves Lean's termination checker).

Utilities of the repository that are not part of the provided sources
(`is-constant.ts`, `utils/checks.ts`, `utils/get-foreign-bindings.ts`,
`utils/get-hook-call-type.ts`, babel's `getBindingIdentifier`) are modelled
from the specification; each such definition carries a doc comment saying so.
-/

/-- Which of the two caches a slot belongs to (the `type: 'memo' | 'ref'`
argument threaded through `OptimizerScope`). -/
inductive CacheType where
  | memo
  | ref
deriving DecidableEq, Repr

/-- Identifier nodes. Babel identifiers are compared by node identity (the
optimized-id table is a `WeakMap`, the constants set a `WeakSet`), so the
embedding gives every identifier an identity:
`src` identifiers come from the input program (binding identifiers among them),
`gen` identifiers are produced by `scope.generateUidIdentifier`, and
`imported` identifiers are the canonical local names produced by
`getImportIdentifier` for runtime symbols (`equals`, `branch`, `cache`, `ref`,
`useMemo`, `useRef`). -/
inductive Ident where
  | src (name : String) (uid : Nat)
  | gen (base : String) (uid : Nat)
  | imported (sym : String)
deriving DecidableEq, Repr

/-- The source name of an identifier (babel's `id.name`). -/
def Ident.name : Ident → String
  | .src n _ => n
  | .gen b _ => b
  | .imported s => s

/-- Variable declaration kind (`let` / `const` / `var`). -/
inductive VKind where
  | klet
  | kconst
  | kvar
deriving DecidableEq, Repr

/-- Logical operators (`&&`, `||`, `??`). -/
inductive LogicalOp where
  | andOp
  | orOp
  | nullishOp
deriving DecidableEq, Repr

/-- Expression nodes of the embedded dialect. `paren` stands for the family of
nested wrappers recognized by `isNestedExpression` / the simplifier
(`ParenthesizedExpression`, `TypeCastExpression`, the `TS*` assertion forms):
all of them hold one inner expression and every consumer simply recurses into
it. `update` covers `UpdateExpression` (`++x`), which the optimizer's
expression dispatcher leaves to the final fall-through case. -/
inductive Expr where
  | ident (id : Ident)
  | num (n : Nat)
  | str (s : String)
  | bool (b : Bool)
  | nullL
  | bigint (v : String)
  | paren (inner : Expr)
  | member (obj : Expr) (prop : Expr) (computed : Bool)
  | binary (op : String) (l : Expr) (r : Expr)
  | logical (op : LogicalOp) (l : Expr) (r : Expr)
  | cond (test : Expr) (cons : Expr) (alt : Expr)
  | unary (op : String) (arg : Expr)
  | update (op : String) (isPre : Bool) (arg : Expr)
  | call (callee : Expr) (args : List Expr)
  | assign (op : String) (lhs : Expr) (rhs : Expr)

/-- The `deps` field of an `OptimizedExpression`:
`undefined`, a single expression, or a list of expressions. -/
inductive OptDeps where
  | undef
  | one (e : Expr)
  | many (l : List Expr)

/-- `OptimizedExpression`: the rewritten expression, its dependency
expressions and the constant flag (an omitted/`undefined` flag is `false`,
matching how the source consumes it in boolean position). -/
structure OptEx where
  expr : Expr
  deps : OptDeps := .undef
  constant : Bool := false

/-- The `dependencies` argument of `createMemo`:
`t.Expression | (t.Expression | undefined)[] | boolean | undefined`.
`omitted` is the missing argument; `fls` and `omitted` are both falsy and
take the same branch in the source. -/
inductive Deps where
  | omitted
  | tru
  | fls
  | one (e : Expr)
  | list (l : List (Option Expr))

/-- Statement nodes. Every constructor carries the boolean skip marker that
`shouldSkipNode` (utils/checks.ts, not under src/; modelled from the spec:
"Statement nodes annotated with a skip marker (preserved from the input)")
reads off the node. Statements the optimizer emits itself carry `false`.
`forOf` models the `ForXStatement` family; its left side is restricted to a
single-identifier declaration. -/
inductive Stmt where
  | exprStmt (skip : Bool) (e : Expr)
  | varDecl (skip : Bool) (kind : VKind) (decls : List (Ident × Option Expr))
  | ret (skip : Bool) (arg : Option Expr)
  | block (skip : Bool) (body : List Stmt)
  | ifS (skip : Bool) (test : Expr) (cons : Stmt) (alt : Option Stmt)
  | whileS (skip : Bool) (test : Expr) (body : Stmt)
  | forOf (skip : Bool) (kind : VKind) (left : Ident) (right : Expr) (body : Stmt)

/-- The skip marker of a statement (`shouldSkipNode` for statements). -/
def Stmt.skipMark : Stmt → Bool
  | .exprStmt sk _ => sk
  | .varDecl sk _ _ => sk
  | .ret sk _ => sk
  | .block sk _ => sk
  | .ifS sk _ _ _ => sk
  | .whileS sk _ _ => sk
  | .forOf sk _ _ _ _ => sk

/-- Scope identities. A scope records its parent and its loop flag at
construction (`new OptimizerScope(ctx, path, parent, isInLoop)`) and never
changes them, so the embedding bakes both into the identity; `birth` is a
fresh number distinguishing siblings. -/
inductive ScopeId where
  | root
  | child (parent : ScopeId) (birth : Nat) (isInLoop : Bool)
deriving DecidableEq, Repr

/-- The parent link of a scope (`this.parent`). -/
def ScopeId.parentOf : ScopeId → Option ScopeId
  | .root => none
  | .child p _ _ => some p

/-- The loop flag of a scope (`this.isInLoop`; `undefined` on the root is
falsy). -/
def ScopeId.inLoop : ScopeId → Bool
  | .root => false
  | .child _ _ l => l

/-- The mutable fields of one `OptimizerScope`.
`loopMemo` / `loopRef` are `this.loop.memo` / `this.loop.ref`;
`loopUndef` is the property `this.loop[undefined]`, the key actually written
when `createLoopHeader` is called with no argument (optimizer.ts line 94). -/
structure ScopeMut where
  memo : Option Ident := none
  ref : Option Ident := none
  indecesMemo : Nat := 0
  indecesRef : Nat := 0
  statements : List Stmt := []
  loopMemo : Option Ident := none
  loopRef : Option Ident := none
  loopUndef : Option Ident := none
  loopIndex : Option Ident := none
  optimizedID : List (Ident × OptEx) := []
  constants : List Ident := []

instance : Inhabited ScopeMut := ⟨{}⟩

/-- Association-list lookup by decidable equality (node-identity keyed
`WeakMap.get`). -/
def assocFind {α β : Type} [DecidableEq α] (k : α) : List (α × β) → Option β
  | [] => none
  | (a, b) :: rest => if a = k then some b else assocFind k rest

/-- Association-list update (`WeakMap.set`): replaces the first entry with the
key, or appends a fresh one. -/
def assocSet {α β : Type} [DecidableEq α] (k : α) (v : β) : List (α × β) → List (α × β)
  | [] => [(k, v)]
  | (a, b) :: rest => if a = k then (k, v) :: rest else (a, b) :: assocSet k v rest

/-- Association-list removal of the first entry with the key
(`WeakMap.delete`). -/
def assocErase {α β : Type} [DecidableEq α] (k : α) : List (α × β) → List (α × β)
  | [] => []
  | (a, b) :: rest => if a = k then rest else (a, b) :: assocErase k rest

/-- The full mutable state of one `Optimizer` run: the scope store, the
current scope (`this.scope`), the fresh-uid counter backing
`generateUidIdentifier`, and the birth counter for fresh scopes.  Scopes
absent from the store are fresh (`default : ScopeMut`), so creating a scope
does not touch the store.  The `this.dependency` table of the source is a
`WeakMap` keyed by node identity; since the recursive walk reaches every AST
position exactly once and distinct positions are distinct nodes, every lookup
in it misses, so the embedding elides the table (see `createDependency`). -/
structure OptState where
  scopes : List (ScopeId × ScopeMut) := []
  current : ScopeId := .root
  uid : Nat := 0
  birth : Nat := 0

/-- Read one scope's record from the store. -/
def OptState.findScope (s : OptState) (a : ScopeId) : ScopeMut :=
  (assocFind a s.scopes).getD default

/-- Write one scope's record into the store. -/
def OptState.setScope (s : OptState) (a : ScopeId) (m : ScopeMut) : OptState :=
  { s with scopes := assocSet a m s.scopes }

/-- The static context of a run: which source names are foreign bindings
(declared outside the component), the binding identifier of each component
binding name, and base-name preferences are untouched.
Modelled from the spec: `isForeignBinding` / `getForeignBindings`
(utils/get-foreign-bindings.ts) and babel's `scope.getBindingIdentifier` are
not under src/; a name is foreign iff it is listed in `foreign`, and
`bindings` maps a component binding name to its unique binding identifier
node.  The embedding covers presets in which every call expression classifies
as an ordinary call (`getHookCallType` returns `none`), so the hook-preset
tables are not represented. -/
structure Ctx where
  foreign : List String := []
  bindings : List (String × Ident) := []

/-- Babel `scope.getBindingIdentifier(name)`, on the modelled binding table. -/
def lookupBinding (ctx : Ctx) (name : String) : Option Ident :=
  assocFind name ctx.bindings

/-- Modelled from the spec: `isForeignBinding` (utils/get-foreign-bindings.ts
is not under src/) — true iff the name is declared outside the component. -/
def isForeignBinding (ctx : Ctx) (name : String) : Bool :=
  ctx.foreign.contains name

/-- `generateUidIdentifier(base)`: a fresh identifier from the uid counter. -/
def genUid (base : String) (s : OptState) : Ident × OptState :=
  (Ident.gen base s.uid, { s with uid := s.uid + 1 })

/-- `OptimizerScope.createHeader(type)` on scope `a`: lazily create and cache
the scope's memo/ref cache header identifier. -/
def createHeader (a : ScopeId) (ty : CacheType) (s : OptState) : Ident × OptState :=
  let m := s.findScope a
  match ty with
  | .ref =>
    match m.ref with
    | some r => (r, s)
    | none =>
      let (id, s1) := genUid "ref" s
      (id, s1.setScope a { s1.findScope a with ref := some id })
  | .memo =>
    match m.memo with
    | some r => (r, s)
    | none =>
      let (id, s1) := genUid "cache" s
      (id, s1.setScope a { s1.findScope a with memo := some id })

/-- `OptimizerScope.createIndex(type)` on scope `a`: return the current slot
counter (the source wraps it in `t.numericLiteral`) and bump it. -/
def createIndex (a : ScopeId) (ty : CacheType) (s : OptState) : Nat × OptState :=
  let m := s.findScope a
  match ty with
  | .memo => (m.indecesMemo, s.setScope a { m with indecesMemo := m.indecesMemo + 1 })
  | .ref => (m.indecesRef, s.setScope a { m with indecesRef := m.indecesRef + 1 })

/-- `OptimizerScope.createLoopHeader(type)` on scope `a`.  The parameter is
optional here because the one call in `createMemo` (optimizer.ts line 94)
passes no argument although the signature demands one; at run time that reads
and writes the property `this.loop[undefined]`, modelled by the `loopUndef`
field, while the explicit calls in the header-declaration builders pass
`'memo'` / `'ref'`. -/
def createLoopHeader (a : ScopeId) (ty : Option CacheType) (s : OptState) : Ident × OptState :=
  let m := s.findScope a
  let cur := match ty with
    | some .memo => m.loopMemo
    | some .ref => m.loopRef
    | none => m.loopUndef
  match cur with
  | some i => (i, s)
  | none =>
    let (id, s1) := genUid "loop" s
    let m1 := s1.findScope a
    let m2 := match ty with
      | some .memo => { m1 with loopMemo := some id }
      | some .ref => { m1 with loopRef := some id }
      | none => { m1 with loopUndef := some id }
    (id, s1.setScope a m2)

/-- `OptimizerScope.createLoopIndex()` on scope `a`. -/
def createLoopIndex (a : ScopeId) (s : OptState) : Ident × OptState :=
  let m := s.findScope a
  match m.loopIndex with
  | some i => (i, s)
  | none =>
    let (id, s1) := genUid "id" s
    (id, s1.setScope a { s1.findScope a with loopIndex := some id })

/-- `OptimizerScope.push(...)` on scope `a`. -/
def pushStmts (a : ScopeId) (l : List Stmt) (s : OptState) : OptState :=
  let m := s.findScope a
  s.setScope a { m with statements := m.statements ++ l }

/-- `OptimizerScope.setOptimized` on scope `a`. -/
def setOptimized (a : ScopeId) (k : Ident) (v : OptEx) (s : OptState) : OptState :=
  let m := s.findScope a
  s.setScope a { m with optimizedID := assocSet k v m.optimizedID }

/-- `OptimizerScope.getOptimized` on scope `a` — reads only that scope's own
table, with no parent traversal. -/
def getOptimized (s : OptState) (a : ScopeId) (k : Ident) : Option OptEx :=
  assocFind k (s.findScope a).optimizedID

/-- `OptimizerScope.deleteOptimized` starting at scope `a`: walk the parent
chain up to the first scope whose table holds the key and remove it there. -/
def deleteOptimized (a : ScopeId) (k : Ident) (s : OptState) : OptState :=
  let m := s.findScope a
  if (assocFind k m.optimizedID).isSome then
    s.setScope a { m with optimizedID := assocErase k m.optimizedID }
  else
    match a with
    | .root => s
    | .child p _ _ => deleteOptimized p k s

/-- `OptimizerScope.addConstant` on scope `a` (`WeakSet.add`). -/
def addConstant (a : ScopeId) (v : Ident) (s : OptState) : OptState :=
  let m := s.findScope a
  if m.constants.contains v then s
  else s.setScope a { m with constants := v :: m.constants }

/-- `OptimizerScope.hasConstant` on scope `a`. -/
def hasConstantIn (s : OptState) (a : ScopeId) (v : Ident) : Bool :=
  (s.findScope a).constants.contains v

/-- `OptimizerScope.getMemoDeclarations()` on scope `a`: when the memo header
exists, build its declaration — a `branch(parentHeader, parentIndex, size)`
header for a child scope (allocating a parent slot), or the root
`cache(useMemo, size)` declaration. -/
def getMemoDeclarations (a : ScopeId) (s : OptState) : Option (List Stmt) × OptState :=
  if (s.findScope a).memo.isSome then
    match a.parentOf with
    | some p =>
      let (header, s1) := createHeader p .memo s
      let (index, s2) := createIndex p .memo s1
      let (selfH, s3) := createHeader a .memo s2
      (some [.varDecl false .klet [(selfH,
        some (.call (.ident (.imported "branch"))
          [.ident header, .num index, .num (s3.findScope a).indecesMemo]))]], s3)
    | none =>
      let m := s.findScope a
      (some [.varDecl false .klet [(m.memo.getD (.imported "cache"),
        some (.call (.ident (.imported "cache"))
          [.ident (.imported "useMemo"), .num m.indecesMemo]))]], s)
  else (none, s)

/-- `OptimizerScope.getRefDeclarations()` on scope `a`. -/
def getRefDeclarations (a : ScopeId) (s : OptState) : Option (List Stmt) × OptState :=
  if (s.findScope a).ref.isSome then
    match a.parentOf with
    | some p =>
      let (header, s1) := createHeader p .ref s
      let (index, s2) := createIndex p .ref s1
      let (selfH, s3) := createHeader a .ref s2
      (some [.varDecl false .klet [(selfH,
        some (.call (.ident (.imported "branch"))
          [.ident header, .num index, .num (s3.findScope a).indecesRef]))]], s3)
    | none =>
      let m := s.findScope a
      (some [.varDecl false .klet [(m.ref.getD (.imported "ref"),
        some (.call (.ident (.imported "ref"))
          [.ident (.imported "useRef"), .num m.indecesRef]))]], s)
  else (none, s)

/-- `OptimizerScope.getLoopMemoDeclaration()` on scope `a`: the declaration
`let header = branch(parentHeader, parentIndex, 0), loopIdx = 0` that the
loop's enclosing scope receives (size 0: "Looped branches cannot be
statically analyzed"). -/
def getLoopMemoDeclaration (a : ScopeId) (s : OptState) : Option Stmt × OptState :=
  match a.parentOf with
  | none => (none, s)
  | some p =>
    let (header, s1) := createHeader p .memo s
    let (index, s2) := createIndex p .memo s1
    let (id, s3) := createLoopIndex a s2
    let (selfH, s4) := createHeader a .memo s3
    (some (.varDecl false .klet
      [(selfH, some (.call (.ident (.imported "branch"))
          [.ident header, .num index, .num 0])),
       (id, some (.num 0))]), s4)

/-- `OptimizerScope.getLoopRefDeclaration()` on scope `a` (defined by the
source but never called by the optimizer). -/
def getLoopRefDeclaration (a : ScopeId) (s : OptState) : Option Stmt × OptState :=
  match a.parentOf with
  | none => (none, s)
  | some p =>
    let (header, s1) := createHeader p .ref s
    let (index, s2) := createIndex p .ref s1
    let (id, s3) := createLoopIndex a s2
    let (selfH, s4) := createHeader a .ref s3
    (some (.varDecl false .klet
      [(selfH, some (.call (.ident (.imported "branch"))
          [.ident header, .num index, .num 0])),
       (id, some (.num 0))]), s4)

/-- `OptimizerScope.getLoopMemoHeaderDeclaration()` on scope `a`: guarded by
`this.loop.memo` — the field the explicit `createLoopHeader('memo')` calls
write — it builds the per-iteration
`let localIdx = ++loopIdx, loopHeader = branch(header, localIdx, size)`
declaration. -/
def getLoopMemoHeaderDeclaration (a : ScopeId) (s : OptState) : Option (List Stmt) × OptState :=
  if (s.findScope a).loopMemo.isSome then
    let (header, s1) := createHeader a .memo s
    let (index, s2) := createLoopIndex a s1
    let (localIndex, s3) := genUid "loopId" s2
    let (lh, s4) := createLoopHeader a (some .memo) s3
    (some [.varDecl false .klet
      [(localIndex, some (.update "++" true (.ident index))),
       (lh, some (.call (.ident (.imported "branch"))
          [.ident header, .ident localIndex, .num (s4.findScope a).indecesMemo]))]], s4)
  else (none, s)

/-- `OptimizerScope.getLoopRefHeaderDeclaration()` on scope `a`. -/
def getLoopRefHeaderDeclaration (a : ScopeId) (s : OptState) : Option (List Stmt) × OptState :=
  if (s.findScope a).loopRef.isSome then
    let (header, s1) := createHeader a .ref s
    let (index, s2) := createLoopIndex a s1
    let (localIndex, s3) := genUid "loopId" s2
    let (lh, s4) := createLoopHeader a (some .ref) s3
    (some [.varDecl false .klet
      [(localIndex, some (.update "++" true (.ident index))),
       (lh, some (.call (.ident (.imported "branch"))
          [.ident header, .ident localIndex, .num (s4.findScope a).indecesRef]))]], s4)
  else (none, s)

/-- The loop body of `mergeVariableDeclaration`: collect runs of `let`
declarations into one declaration.  Faithful to the source, a trailing run of
`let` declarations is dropped: the function returns `newStatements` without
flushing a non-empty `stack`. -/
def mergeGo : List (Ident × Option Expr) → List Stmt → List Stmt
  | _, [] => []
  | stack, .varDecl _ .klet ds :: rest => mergeGo (stack ++ ds) rest
  | stack, v :: rest =>
    (if stack.isEmpty then [] else [.varDecl false .klet stack]) ++ v :: mergeGo [] rest

/-- `mergeVariableDeclaration` (optimizer-scope module). -/
def mergeVariableDeclaration (statements : List Stmt) : List Stmt :=
  mergeGo [] statements

/-- `OptimizerScope.getStatements()` on scope `a`: snapshot the pushed
statements, prepend the header declarations (the loop variants when the scope
is a loop body), and coalesce `let` runs. -/
def getStatements (a : ScopeId) (s : OptState) : List Stmt × OptState :=
  let result := (s.findScope a).statements
  let (memoHeader, s1) :=
    if a.inLoop then getLoopMemoHeaderDeclaration a s else getMemoDeclarations a s
  let (refHeader, s2) :=
    if a.inLoop then getLoopRefHeaderDeclaration a s1 else getRefDeclarations a s1
  (mergeVariableDeclaration ((memoHeader.getD []) ++ (refHeader.getD []) ++ result), s2)

/-- `new OptimizerScope(ctx, path, parent, isInLoop)`: a fresh scope identity.
The store is untouched — an unseen identity reads back as a fresh record. -/
def newScope (parent : ScopeId) (isInLoop : Bool) (s : OptState) : ScopeId × OptState :=
  (ScopeId.child parent s.birth isInLoop, { s with birth := s.birth + 1 })

/-- `this.scope = a`. -/
def setCurrent (a : ScopeId) (s : OptState) : OptState :=
  { s with current := a }

/-- The header selection of `createMemo` (optimizer.ts lines 92–95):
`this.scope.isInLoop ? this.scope.createLoopHeader() : this.scope.createHeader(type)`.
Note the loop branch passes no cache kind. -/
def createMemoHeader (ty : CacheType) (s : OptState) : Ident × OptState :=
  if s.current.inLoop then createLoopHeader s.current none s
  else createHeader s.current ty s

/-- One step of `createMemo`'s dependency-array fold (optimizer.ts lines
106–128): accumulate a `&&`-chain, deduplicating identifier dependencies by
node identity via the `newSet`. -/
def foldDepsStep : Option Expr × List Ident → Option Expr → Option Expr × List Ident
  | (some c, ns), some d =>
    match d with
    | .ident i =>
      if ns.contains i then (some c, ns)
      else (some (.logical .andOp c (.ident i)), i :: ns)
    | _ => (some (.logical .andOp c d), ns)
  | (none, ns), some d =>
    (some d, match d with | .ident i => i :: ns | _ => ns)
  | acc, none => acc

/-- The full dependency-array fold of `createMemo`. -/
def foldDeps (l : List (Option Expr)) : Option Expr :=
  (l.foldl foldDepsStep (none, [])).1

/-- The `condition` computation of `createMemo` (optimizer.ts lines 103–140):
an array of dependencies folds with `&&`; `true` means no guard; a single
expression is reused; a falsy `dependencies` (omitted or `false`) produces the
`equals(header, index, current)` comparison. -/
def memoCondition (header : Ident) (index : Nat) (current : Expr) : Deps → Option Expr
  | .list deps => foldDeps deps
  | .tru => none
  | .one d => some d
  | .omitted =>
    some (.call (.ident (.imported "equals")) [.ident header, .num index, current])
  | .fls =>
    some (.call (.ident (.imported "equals")) [.ident header, .num index, current])

/-- The fast path of `createMemo` (optimizer.ts lines 84–91): an identifier
already present in the current scope's optimized table short-circuits. -/
def memoFastPath (current : Expr) (s : OptState) : Option OptEx :=
  match current with
  | .ident id => getOptimized s s.current id
  | _ => none

/-- `Optimizer.createMemo(current, dependencies, type)` (optimizer.ts lines
79–188): allocate a slot in the current scope's cache, derive the guard from
the dependencies, and push the `let` declaration(s) for the guard and the
memoized value. -/
def createMemo (current : Expr) (dependencies : Deps) (ty : CacheType) (s : OptState) :
    OptEx × OptState :=
  let fast : Option OptEx := memoFastPath current s
  match fast with
  | some o => (o, s)
  | none =>
    let c := s.current
    let (header, s1) := createMemoHeader ty s
    let (index, s2) := createIndex c ty s1
    let pos : Expr := .member (.ident header) (.num index) true
    let (vid, s3) := genUid "value" s2
    let condition : Option Expr := memoCondition header index current dependencies
    let (eqid, declHead, s4) : Expr × List (Ident × Option Expr) × OptState :=
      match condition with
      | none => (pos, [], s3)
      | some (.ident i) => (.ident i, [], s3)
      | some c' =>
        let (eqId, s4) := genUid "equals" s3
        (.ident eqId, [(eqId, some c')], s4)
    let optimized : OptEx :=
      { expr := .ident vid,
        deps := match condition with | none => .many [] | some _ => .one eqid,
        constant := false }
    let s5 :=
      match condition with
      | none => addConstant c vid s4
      | some _ => s4
    let s6 :=
      match current with
      | .ident id => setOptimized c vid optimized (setOptimized c id optimized s5)
      | _ => s5
    let init : Expr :=
      .cond (match condition with
             | some _ => eqid
             | none => .binary "in" (.num index) (.ident header))
        pos (.assign "=" pos current)
    let s7 := pushStmts c [.varDecl false .klet (declHead ++ [(vid, some init)])] s6
    (optimized, s7)

/-- `Optimizer.memoizeIdentifier(path, id)`: foreign bindings are constant;
a component binding is memoized as a dependency keyed by its binding
identifier; an unresolved (global) identifier is returned as constant. -/
def memoizeIdentifier (ctx : Ctx) (id : Ident) (s : OptState) : OptEx × OptState :=
  if isForeignBinding ctx id.name then
    ({ expr := .ident id, deps := .many [], constant := true }, s)
  else
    match lookupBinding ctx id.name with
    | some binding => createMemo (.ident binding) .fls .memo s
    | none => ({ expr := .ident id, deps := .many [], constant := true }, s)

/-- `Optimizer.optimizeIdentifier(path)`. -/
def optimizeIdentifier (ctx : Ctx) (id : Ident) (s : OptState) : OptEx × OptState :=
  memoizeIdentifier ctx id s

mutual

/-- Modelled from the spec: `is-constant.ts` is not under src/.  Per §4.1,
an expression is constant iff every identifier it references is a foreign
binding, a global (no component binding resolves), or registered in the
scope's constants set, and it contains no hook call (the embedding covers
presets with no hooks), no assignment (updates included), and no call or
member read whose receiver is not itself constant; non-template literals are
constant. -/
def isConstantSpec (ctx : Ctx) (s : OptState) : Expr → Bool
  | .ident id =>
    isForeignBinding ctx id.name || (lookupBinding ctx id.name).isNone
      || hasConstantIn s s.current id
  | .num _ => true
  | .str _ => true
  | .bool _ => true
  | .nullL => true
  | .bigint _ => true
  | .paren e => isConstantSpec ctx s e
  | .member o p c => isConstantSpec ctx s o && (!c || isConstantSpec ctx s p)
  | .binary _ l r => isConstantSpec ctx s l && isConstantSpec ctx s r
  | .logical _ l r => isConstantSpec ctx s l && isConstantSpec ctx s r
  | .cond t c a =>
    isConstantSpec ctx s t && isConstantSpec ctx s c && isConstantSpec ctx s a
  | .unary _ a => isConstantSpec ctx s a
  | .update _ _ _ => false
  | .call f args => isConstantSpec ctx s f && isConstantList ctx s args
  | .assign _ _ _ => false

/-- Constancy of every expression in a list (call arguments). -/
def isConstantList (ctx : Ctx) (s : OptState) : List Expr → Bool
  | [] => true
  | e :: rest => isConstantSpec ctx s e && isConstantList ctx s rest

end

/-- `t.isLiteral` minus template literals (the early return of
`optimizeExpression`, optimizer.ts line 922). -/
def isLiteralExpr : Expr → Bool
  | .num _ => true
  | .str _ => true
  | .bool _ => true
  | .nullL => true
  | .bigint _ => true
  | _ => false

/-- `createDependencies` / `mergeDependencies` view of an `OptimizedExpression`
deps field as an array. -/
def optDepsToList : OptDeps → List Expr
  | .undef => []
  | .one e => [e]
  | .many l => l

/-- Passing an `OptimizedExpression` deps field on as the `dependencies`
argument of `createMemo` (the union type is forwarded unchanged). -/
def optDepsToDeps : OptDeps → Deps
  | .undef => .omitted
  | .one e => .one e
  | .many l => .list (l.map some)

mutual

/-- `Optimizer.optimizeExpression`: the dispatch of optimizer.ts lines
914–990, restricted to the embedded dialect.  Expressions of the subset carry
no skip marker, so the `shouldSkipNode` early return does not arise; nested
wrappers recurse; non-template literals are constant; `isConstant` routes to
a one-time `createMemo`; the remaining kinds dispatch to their methods, and
anything else (`update` here) returns unchanged with `constant: true`. -/
def optimizeExpression (fuel : Nat) (ctx : Ctx) (e : Expr) (s : OptState) :
    OptEx × OptState :=
  match fuel with
  | 0 => ({ expr := .nullL, deps := .undef, constant := false }, s)
  | n + 1 =>
    match e with
    | .paren inner => optimizeExpression n ctx inner s
    | _ =>
      if isLiteralExpr e then ({ expr := e, deps := .undef, constant := true }, s)
      else if isConstantSpec ctx s e then createMemo e .tru .memo s
      else
        match e with
        | .ident id => optimizeIdentifier ctx id s
        | .member o p c => optimizeMemberExpression n ctx o p c s
        | .cond t c a => optimizeConditionalExpression n ctx t c a s
        | .binary op l r => optimizeBinaryExpression n ctx op l r s
        | .logical op l r => optimizeLogicalExpression n ctx op l r s
        | .unary op a => optimizeUnaryExpression n ctx op a s
        | .call f args => optimizeCallExpression n ctx f args s
        | .assign op l r => optimizeAssignmentExpression n ctx op l r s
        | _ => ({ expr := e, deps := .undef, constant := true }, s)

/-- `Optimizer.createDependency`: optimize, skip constants, short-circuit
identifiers registered as constants, then referentially memoize.  The
`this.dependency` lookup is elided (identity-keyed, single visit per node:
always a miss). -/
def createDependency (fuel : Nat) (ctx : Ctx) (e : Expr) (s : OptState) :
    Option OptEx × OptState :=
  match fuel with
  | 0 => (none, s)
  | n + 1 =>
    let (optimized, s1) := optimizeExpression n ctx e s
    if optimized.constant then (none, s1)
    else
      let isConstIdent :=
        match optimized.expr with
        | .ident i => hasConstantIn s1 s1.current i
        | _ => false
      if isConstIdent then (some optimized, s1)
      else
        let (record, s2) := createMemo optimized.expr .fls .memo s1
        (some record, s2)

/-- `Optimizer.memoizeMemberExpression`: constant member expressions pass
through; otherwise the object — and, when computed, the property — become
dependencies. -/
def memoizeMemberExpression (fuel : Nat) (ctx : Ctx) (obj prop : Expr) (computed : Bool)
    (s : OptState) : (Expr × List Expr) × OptState :=
  match fuel with
  | 0 => ((.member obj prop computed, []), s)
  | n + 1 =>
    if isConstantSpec ctx s (.member obj prop computed) then
      ((.member obj prop computed, []), s)
    else
      let (sourceOpt, s1) := createDependency n ctx obj s
      let (obj1, cond1) :=
        match sourceOpt with
        | some o => (o.expr, optDepsToList o.deps)
        | none => (obj, [])
      if computed then
        let (propOpt, s2) := createDependency n ctx prop s1
        match propOpt with
        | some p => ((.member obj1 p.expr computed, cond1 ++ optDepsToList p.deps), s2)
        | none => ((.member obj1 prop computed, cond1), s2)
      else ((.member obj1 prop computed, cond1), s1)

/-- `Optimizer.optimizeMemberExpression`: memoize the parts, then the whole. -/
def optimizeMemberExpression (fuel : Nat) (ctx : Ctx) (obj prop : Expr) (computed : Bool)
    (s : OptState) : OptEx × OptState :=
  match fuel with
  | 0 => ({ expr := .nullL, deps := .undef, constant := false }, s)
  | n + 1 =>
    let ((e1, deps), s1) := memoizeMemberExpression n ctx obj prop computed s
    createMemo e1 (.list (deps.map some)) .memo s1

/-- `Optimizer.optimizeConditionalExpression`: lower `t ? a : b` to a fresh
`let value` plus an if/else whose arms are child scopes assigning into it. -/
def optimizeConditionalExpression (fuel : Nat) (ctx : Ctx) (t c a : Expr) (s : OptState) :
    OptEx × OptState :=
  match fuel with
  | 0 => ({ expr := .nullL, deps := .undef, constant := false }, s)
  | n + 1 =>
    let (id, s1) := genUid "value" s
    let parent := s1.current
    let (optimizedTest, s2) := optimizeExpression n ctx t s1
    let (consequentId, s3) := newScope parent false s2
    let s4 := setCurrent consequentId s3
    let (optimizedConsequent, s5) := optimizeExpression n ctx c s4
    let s6 := setCurrent parent s5
    let (alternateId, s7) := newScope parent false s6
    let s8 := setCurrent alternateId s7
    let (optimizedAlternate, s9) := optimizeExpression n ctx a s8
    let s10 := setCurrent parent s9
    let s11 := pushStmts consequentId
      [.exprStmt false (.assign "=" (.ident id) optimizedConsequent.expr)] s10
    let s12 := pushStmts alternateId
      [.exprStmt false (.assign "=" (.ident id) optimizedAlternate.expr)] s11
    let (consStmts, s13) := getStatements consequentId s12
    let (altStmts, s14) := getStatements alternateId s13
    let s15 := pushStmts parent
      [.varDecl false .klet [(id, none)],
       .ifS false optimizedTest.expr (.block false consStmts)
        (some (.block false altStmts))] s14
    ({ expr := .ident id, deps := .undef, constant := false }, s15)

/-- `Optimizer.optimizeBinaryExpression`: `|>` passes through; both operands
become dependencies, then the rebuilt node is memoized. -/
def optimizeBinaryExpression (fuel : Nat) (ctx : Ctx) (op : String) (l r : Expr)
    (s : OptState) : OptEx × OptState :=
  match fuel with
  | 0 => ({ expr := .nullL, deps := .undef, constant := false }, s)
  | n + 1 =>
    if op = "|>" then ({ expr := .binary op l r, deps := .undef, constant := false }, s)
    else
      let (leftOpt, s1) := createDependency n ctx l s
      let (l1, d1) :=
        match leftOpt with
        | some o => (o.expr, optDepsToList o.deps)
        | none => (l, [])
      let (rightOpt, s2) := createDependency n ctx r s1
      let (r1, d2) :=
        match rightOpt with
        | some o => (o.expr, optDepsToList o.deps)
        | none => (r, [])
      createMemo (.binary op l1 r1) (.list ((d1 ++ d2).map some)) .memo s2

/-- `Optimizer.optimizeLogicalExpression`: evaluate the left in the current
scope, the right in a child scope behind the operator's test, and return the
condition identifier unmemoized. -/
def optimizeLogicalExpression (fuel : Nat) (ctx : Ctx) (op : LogicalOp) (l r : Expr)
    (s : OptState) : OptEx × OptState :=
  match fuel with
  | 0 => ({ expr := .nullL, deps := .undef, constant := false }, s)
  | n + 1 =>
    let (id, s1) := genUid "condition" s
    let parent := s1.current
    let (left, s2) := optimizeExpression n ctx l s1
    let (rightId, s3) := newScope parent false s2
    let s4 := setCurrent rightId s3
    let (right, s5) := optimizeExpression n ctx r s4
    let s6 := setCurrent parent s5
    let test : Expr :=
      match op with
      | .nullishOp => .binary "==" (.ident id) .nullL
      | .orOp => .unary "!" (.ident id)
      | .andOp => .ident id
    let s7 := pushStmts rightId [.exprStmt false (.assign "=" (.ident id) right.expr)] s6
    let (rightStmts, s8) := getStatements rightId s7
    let s9 := pushStmts parent
      [.varDecl false .klet [(id, some left.expr)],
       .ifS false test (.block false rightStmts) none] s8
    ({ expr := .ident id, deps := .undef, constant := false }, s9)

/-- `Optimizer.optimizeUnaryExpression`: the argument becomes a dependency;
when it is constant the node passes through unmemoized. -/
def optimizeUnaryExpression (fuel : Nat) (ctx : Ctx) (op : String) (a : Expr)
    (s : OptState) : OptEx × OptState :=
  match fuel with
  | 0 => ({ expr := .nullL, deps := .undef, constant := false }, s)
  | n + 1 =>
    let (argOpt, s1) := createDependency n ctx a s
    match argOpt with
    | some o => createMemo (.unary op o.expr) (optDepsToDeps o.deps) .memo s1
    | none => ({ expr := .unary op a, deps := .undef, constant := false }, s1)

/-- `Optimizer.optimizeCallExpression`: `getHookCallType`
(utils/get-hook-call-type.ts, not under src/) classifies the callee against
the preset; the embedding covers presets in which every call is an ordinary
call (`none`), so the dispatch always lands in
`optimizeCustomHookCall(path, 'none')`. -/
def optimizeCallExpression (fuel : Nat) (ctx : Ctx) (callee : Expr) (args : List Expr)
    (s : OptState) : OptEx × OptState :=
  match fuel with
  | 0 => ({ expr := .nullL, deps := .undef, constant := false }, s)
  | n + 1 => optimizeCustomHookCall n ctx callee args s

/-- `Optimizer.optimizeCustomHookCall(path, 'none')`: callee and arguments
become dependencies (`optimizeHookCallee` / `optimizeHookArguments`), then the
rebuilt call is memoized. -/
def optimizeCustomHookCall (fuel : Nat) (ctx : Ctx) (callee : Expr) (args : List Expr)
    (s : OptState) : OptEx × OptState :=
  match fuel with
  | 0 => ({ expr := .nullL, deps := .undef, constant := false }, s)
  | n + 1 =>
    let (callee1, cond1, s1) : Expr × List Expr × OptState :=
      match callee with
      | .member o p c =>
        let ((e1, ds), s1) := memoizeMemberExpression n ctx o p c s
        (e1, ds, s1)
      | _ =>
        let (calleeOpt, s1) := createDependency n ctx callee s
        match calleeOpt with
        | some o => (o.expr, optDepsToList o.deps, s1)
        | none => (callee, [], s1)
    let ((args1, cond2), s2) := optimizeArgsList n ctx args s1
    createMemo (.call callee1 args1) (.list ((cond1 ++ cond2).map some)) .memo s2

/-- The loop of `Optimizer.optimizeHookArguments`: each argument becomes a
dependency and is replaced in place. -/
def optimizeArgsList (fuel : Nat) (ctx : Ctx) (args : List Expr) (s : OptState) :
    (List Expr × List Expr) × OptState :=
  match fuel with
  | 0 => ((args, []), s)
  | n + 1 =>
    match args with
    | [] => (([], []), s)
    | a :: rest =>
      let (argOpt, s1) := createDependency n ctx a s
      let (a1, d1) :=
        match argOpt with
        | some o => (o.expr, optDepsToList o.deps)
        | none => (a, [])
      let ((rest1, d2), s2) := optimizeArgsList n ctx rest s1
      ((a1 :: rest1, d1 ++ d2), s2)

/-- `Optimizer.optimizeAssignmentExpression`: the left side goes through
`optimizeLVal` with `dirty = true`, the right side becomes a dependency, and
the assignment is returned with the combined deps, not re-memoized. -/
def optimizeAssignmentExpression (fuel : Nat) (ctx : Ctx) (op : String) (l r : Expr)
    (s : OptState) : OptEx × OptState :=
  match fuel with
  | 0 => ({ expr := .nullL, deps := .undef, constant := false }, s)
  | n + 1 =>
    match l with
    | .ident _ | .member _ _ _ =>
      let ((l1, d1), s1) := optimizeLVal n ctx l true s
      let (rightOpt, s2) := createDependency n ctx r s1
      let (r1, d2) :=
        match rightOpt with
        | some o => (o.expr, optDepsToList o.deps)
        | none => (r, [])
      ({ expr := .assign op l1 r1, deps := .many (d1 ++ d2), constant := false }, s2)
    | _ => ({ expr := .assign op l r, deps := .undef, constant := false }, s)

/-- `Optimizer.optimizeLVal`: for an identifier, when dirty, delete the
binding's optimized entry along the scope chain; member expressions go
through `memoizeMemberExpression`; anything else (destructuring) passes
through unchanged. -/
def optimizeLVal (fuel : Nat) (ctx : Ctx) (l : Expr) (dirty : Bool) (s : OptState) :
    (Expr × List Expr) × OptState :=
  match fuel with
  | 0 => ((l, []), s)
  | n + 1 =>
    match l with
    | .ident id =>
      let s1 :=
        if dirty then
          match lookupBinding ctx id.name with
          | some binding => deleteOptimized s.current binding s
          | none => s
        else s
      ((l, []), s1)
    | .member o p c => memoizeMemberExpression n ctx o p c s
    | _ => ((l, []), s)

/-- `Optimizer.optimizeStatement`: skip-marked statements return before the
final `this.scope.push`; the remaining kinds dispatch as in optimizer.ts
lines 1170–1204 (the loop bodies of `optimizeLoopStatement` /
`optimizeForXStatement`, `optimizeIfStatement`, `optimizeBlockStatement` and
`optimizeVariableDeclaration` are inlined at their call sites). -/
def optimizeStatement (fuel : Nat) (ctx : Ctx) (stmt : Stmt) (topBlock : Bool)
    (s : OptState) : Unit × OptState :=
  match fuel with
  | 0 => ((), s)
  | n + 1 =>
    if stmt.skipMark then ((), s)
    else
      match stmt with
      | .exprStmt sk e =>
        let (o, s1) := optimizeExpression n ctx e s
        ((), pushStmts s1.current [.exprStmt sk o.expr] s1)
      | .varDecl _ kind decls => optimizeVarDecls n ctx kind decls s
      | .ret sk arg =>
        match arg with
        | some a =>
          let (o, s1) := optimizeExpression n ctx a s
          ((), pushStmts s1.current [.ret sk (some o.expr)] s1)
        | none => ((), pushStmts s.current [.ret sk none] s)
      | .block _ body =>
        if topBlock then optimizeStmtList n ctx body s
        else
          let parent := s.current
          let (bid, s1) := newScope parent false s
          let s2 := setCurrent bid s1
          let (_, s3) := optimizeStmtList n ctx body s2
          let s4 := setCurrent parent s3
          let (stmts, s5) := getStatements bid s4
          ((), pushStmts parent [.block false stmts] s5)
      | .ifS sk test cons alt =>
        let (optimized, s1) := optimizeExpression n ctx test s
        let parent := s1.current
        let (consequentId, s2) := newScope parent false s1
        let s3 := setCurrent consequentId s2
        let (_, s4) := optimizeStatement n ctx cons true s3
        let s5 := setCurrent parent s4
        let (consStmts, s6) := getStatements consequentId s5
        match alt with
        | some altStmt =>
          let (alternateId, s7) := newScope parent false s6
          let s8 := setCurrent alternateId s7
          let (_, s9) := optimizeStatement n ctx altStmt true s8
          let s10 := setCurrent parent s9
          let (altStmts, s11) := getStatements alternateId s10
          ((), pushStmts parent
            [.ifS sk optimized.expr (.block false consStmts)
              (some (.block false altStmts))] s11)
        | none =>
          ((), pushStmts parent
            [.ifS sk optimized.expr (.block false consStmts) none] s6)
      | .whileS sk test body =>
        let parent := s.current
        let (loopId, s1) := newScope parent true s
        let s2 := setCurrent loopId s1
        let (_, s3) := optimizeStatement n ctx body true s2
        let s4 := setCurrent parent s3
        let (stmts, s5) := getStatements loopId s4
        let (md, s6) := getLoopMemoDeclaration loopId s5
        let s7 :=
          match md with
          | some d => pushStmts parent [d] s6
          | none => s6
        ((), pushStmts parent [.whileS sk test (.block false stmts)] s7)
      | .forOf sk kind left right body =>
        let (o, s1) := optimizeExpression n ctx right s
        let parent := s1.current
        let (loopId, s2) := newScope parent true s1
        let s3 := setCurrent loopId s2
        let (_, s4) := optimizeStatement n ctx body true s3
        let s5 := setCurrent parent s4
        let (stmts, s6) := getStatements loopId s5
        let (md, s7) := getLoopMemoDeclaration loopId s6
        let s8 :=
          match md with
          | some d => pushStmts parent [d] s7
          | none => s7
        ((), pushStmts parent [.forOf sk kind left o.expr (.block false stmts)] s8)

/-- The declarator loop of `Optimizer.optimizeVariableDeclaration`: one fresh
single-declarator declaration per declarator, preserving the kind. -/
def optimizeVarDecls (fuel : Nat) (ctx : Ctx) (kind : VKind)
    (decls : List (Ident × Option Expr)) (s : OptState) : Unit × OptState :=
  match fuel with
  | 0 => ((), s)
  | n + 1 =>
    match decls with
    | [] => ((), s)
    | (id, init) :: rest =>
      let (init1, s1) : Option Expr × OptState :=
        match init with
        | some e =>
          let (o, s1) := optimizeExpression n ctx e s
          (some o.expr, s1)
        | none => (none, s)
      let s2 := pushStmts s1.current [.varDecl false kind [(id, init1)]] s1
      optimizeVarDecls n ctx kind rest s2

/-- The statement loop of `Optimizer.optimizeBlock`. -/
def optimizeStmtList (fuel : Nat) (ctx : Ctx) (stmts : List Stmt) (s : OptState) :
    Unit × OptState :=
  match fuel with
  | 0 => ((), s)
  | n + 1 =>
    match stmts with
    | [] => ((), s)
    | st :: rest =>
      let (_, s1) := optimizeStatement n ctx st false s
      optimizeStmtList n ctx rest s1

end

/-- `Optimizer.optimize()` on a function component whose body is the given
statement list: walk the body into the root scope, then replace the body with
the root scope's finalized statements. -/
def runComponent (fuel : Nat) (ctx : Ctx) (body : List Stmt) : List Stmt :=
  let s0 : OptState := {}
  let (_, s1) := optimizeStmtList fuel ctx body s0
  (getStatements .root s1).1

/-- The literal states of the simplifier pre-pass. -/
inductive LiteralState where
  | truthy
  | falsy
  | nullish
  | indeterminate
deriving DecidableEq, Repr

/-- `getBooleanishState` (simplify-expressions module): boolean, numeric,
null, string and bigint literals are determinate; nesting wrappers recurse;
identifiers and everything else are indeterminate. -/
def getBooleanishState : Expr → LiteralState
  | .bool b => if b then .truthy else .falsy
  | .num n => if n = 0 then .falsy else .truthy
  | .nullL => .nullish
  | .str v => if v = "" then .falsy else .truthy
  | .bigint v => if v = "0" then .falsy else .truthy
  | .ident _ => .indeterminate
  | .paren e => getBooleanishState e
  | _ => .indeterminate

/-- The `LogicalExpression` exit visitor of `simplifyExpressions`: one
rewriting step on a logical expression node (non-logical nodes are untouched
by this visitor). -/
def simplifyLogical (e : Expr) : Expr :=
  match e with
  | .logical op l r =>
    match getBooleanishState l with
    | .nullish => if op = .nullishOp then r else l
    | .falsy => if op = .orOp then r else l
    | .truthy => if op = .andOp then r else l
    | .indeterminate => .logical op l r
  | _ => e

/-- Does any declarator of this statement initialize from an update
expression (`++loopIdx`)?  The per-iteration loop header declaration is the
only emitted statement of that shape. -/
def stmtHasUpdateInit : Stmt → Bool
  | .varDecl _ _ ds =>
    ds.any fun p =>
      match p.2 with
      | some (.update _ _ _) => true
      | _ => false
  | _ => false

/-- The first statement of the body of the first while statement in a list. -/
def whileBodyFirst : List Stmt → Option Stmt
  | [] => none
  | .whileS _ _ (.block _ (b :: _)) :: _ => some b
  | _ :: rest => whileBodyFirst rest

/-- The header argument of the guard call in the first declarator of a
declaration (`let eq = equals(header, i, e), ...` or the loop-header shape). -/
def guardHeaderOfStmt : Stmt → Option Expr
  | .varDecl _ _ ((_, some (.call _ (h :: _))) :: _) => some h
  | _ => none

/-- Does any declarator of this statement initialize from a
`branch(_, _, 0)` call (the loop memo declaration's header initializer)? -/
def stmtHasBranchSizeZeroInit : Stmt → Bool
  | .varDecl _ _ ds =>
    ds.any fun p =>
      match p.2 with
      | some (.call (.ident (.imported "branch")) [_, _, .num 0]) => true
      | _ => false
  | _ => false

mutual

/-- Does a statement (recursively) declare the identifier? -/
def stmtDeclares (i : Ident) : Stmt → Bool
  | .varDecl _ _ ds => ds.any fun p => p.1 == i
  | .block _ b => stmtsDeclare i b
  | .ifS _ _ c a =>
    stmtDeclares i c ||
      (match a with
       | some x => stmtDeclares i x
       | none => false)
  | .whileS _ _ b => stmtDeclares i b
  | .forOf _ _ l _ b => l == i || stmtDeclares i b
  | _ => false

/-- Does any statement of the list declare the identifier? -/
def stmtsDeclare (i : Ident) : List Stmt → Bool
  | [] => false
  | st :: rest => stmtDeclares i st || stmtsDeclare i rest

end

/-- The context of the loop scenario: `y` and `c` are component bindings. -/
def loopCtx : Ctx :=
  { foreign := [], bindings := [("y", .src "y" 100), ("c", .src "c" 101)] }

/-- The loop scenario input: `while (c) { y + 1; }` — a loop whose body
contains an expression that the optimizer memoizes. -/
def loopInput : List Stmt :=
  [.whileS false (.ident (.src "c" 1))
    (.block false [.exprStmt false (.binary "+" (.ident (.src "y" 2)) (.num 1))])]

/-- The rewritten output of the loop scenario. -/
def loopOutput : List Stmt :=
  runComponent 30 loopCtx loopInput

/-- A state whose current scope is a loop-body scope. -/
def sampleLoopState : OptState :=
  let s0 : OptState := {}
  let p := newScope .root true s0
  setCurrent p.1 p.2

/-- The loop-scope statements after a memo-kind and then a ref-kind
`createMemo`, both performed while the current scope is a loop body. -/
def loopMixStatements : List Stmt :=
  let r1 := createMemo (.str "a") .omitted .memo sampleLoopState
  let r2 := createMemo (.str "b") .omitted .ref r1.2
  (r2.2.findScope sampleLoopState.current).statements

/-- The skip scenario input: one statement carrying the skip marker. -/
def skipInput : List Stmt :=
  [.exprStmt true (.assign "=" (.ident (.src "x" 0)) (.num 1))]

/-- A context in which `f` is a foreign binding. -/
def foreignCtx : Ctx :=
  { foreign := ["f"], bindings := [] }

mutual

/-- Does an expression (recursively) mention the identifier? -/
def exprUses (i : Ident) : Expr → Bool
  | .ident j => j == i
  | .num _ => false
  | .str _ => false
  | .bool _ => false
  | .nullL => false
  | .bigint _ => false
  | .paren e => exprUses i e
  | .member o p _ => exprUses i o || exprUses i p
  | .binary _ l r => exprUses i l || exprUses i r
  | .logical _ l r => exprUses i l || exprUses i r
  | .cond t c a => exprUses i t || exprUses i c || exprUses i a
  | .unary _ a => exprUses i a
  | .update _ _ a => exprUses i a
  | .call f args => exprUses i f || exprListUses i args
  | .assign _ l r => exprUses i l || exprUses i r

/-- Does any expression of the list mention the identifier? -/
def exprListUses (i : Ident) : List Expr → Bool
  | [] => false
  | e :: r => exprUses i e || exprListUses i r

end

mutual

/-- Does a statement (recursively) mention the identifier? -/
def stmtUses (i : Ident) : Stmt → Bool
  | .exprStmt _ e => exprUses i e
  | .varDecl _ _ ds => declListUses i ds
  | .ret _ a =>
    match a with
    | some e => exprUses i e
    | none => false
  | .block _ b => stmtListUses i b
  | .ifS _ t c a =>
    exprUses i t || stmtUses i c ||
      (match a with
       | some x => stmtUses i x
       | none => false)
  | .whileS _ t b => exprUses i t || stmtUses i b
  | .forOf _ _ _ r b => exprUses i r || stmtUses i b

/-- Does any statement of the list mention the identifier? -/
def stmtListUses (i : Ident) : List Stmt → Bool
  | [] => false
  | st :: rest => stmtUses i st || stmtListUses i rest

/-- Does any declarator of the list mention the identifier in its
initializer? -/
def declListUses (i : Ident) : List (Ident × Option Expr) → Bool
  | [] => false
  | (_, oe) :: rest =>
    (match oe with
     | some e => exprUses i e
     | none => false) || declListUses i rest

end

/-- The identifier through which the guard call of a declaration's first
declarator indexes the cache (`let eq = equals(header, i, e), ...`). -/
def guardHeaderIdentOfStmt : Stmt → Option Ident
  | .varDecl _ _ ((_, some (.call _ (.ident h :: _))) :: _) => some h
  | _ => none

/-- Strip the nested-wrapper family off an expression. -/
def unwrapExpr : Expr → Expr
  | .paren e => unwrapExpr e
  | e => e

/-- Nesting depth of the wrapper family. -/
def parenDepth : Expr → Nat
  | .paren e => parenDepth e + 1
  | _ => 0

/-- Is this node one of the five literal kinds the simplifier evaluates? -/
def isBooleanishLiteral : Expr → Bool
  | .bool _ => true
  | .num _ => true
  | .nullL => true
  | .str _ => true
  | .bigint _ => true
  | _ => false

/-- A context with one component binding `x` (used by the invalidation
scenario). -/
def dirtyCtx : Ctx := { foreign := [], bindings := [("x", .src "x" 0)] }

/-- A state whose root scope's optimized table holds an entry for the binding
identifier of `x`. -/
def heldState : OptState := setOptimized .root (.src "x" 0) { expr := .num 1 } {}

theorem assocFind_assocSet_self {α β : Type} [DecidableEq α] (k : α) (v : β)
    (l : List (α × β)) : assocFind k (assocSet k v l) = some v := by
  induction l with
  | nil => simp [assocFind, assocSet]
  | cons p rest ih =>
    obtain ⟨a, b⟩ := p
    by_cases h : a = k <;> simp [assocFind, assocSet, h, ih]

theorem assocFind_assocSet_ne {α β : Type} [DecidableEq α] {k k' : α} (v : β)
    (l : List (α × β)) (h : k' ≠ k) :
    assocFind k' (assocSet k v l) = assocFind k' l := by
  have h' : ¬k = k' := fun hh => h hh.symm
  induction l with
  | nil => simp [assocFind, assocSet, h']
  | cons p rest ih =>
    obtain ⟨a, b⟩ := p
    by_cases ha : a = k
    · subst ha
      simp [assocFind, assocSet, h, h']
    · by_cases ha' : a = k' <;> simp [assocFind, assocSet, h, ha, ha', ih]

theorem findScope_setScope_self (s : OptState) (a : ScopeId) (m : ScopeMut) :
    (s.setScope a m).findScope a = m := by
  simp [OptState.findScope, OptState.setScope, assocFind_assocSet_self]

theorem findScope_setScope_ne (s : OptState) (a b : ScopeId) (m : ScopeMut)
    (h : b ≠ a) : (s.setScope a m).findScope b = s.findScope b := by
  simp [OptState.findScope, OptState.setScope, assocFind_assocSet_ne _ _ h]

theorem findScope_genUid (b : String) (s : OptState) (a : ScopeId) :
    ((genUid b s).2).findScope a = s.findScope a := rfl

theorem newScope_fst (p : ScopeId) (il : Bool) (s : OptState) :
    (newScope p il s).1 = ScopeId.child p s.birth il := rfl

theorem findScope_newScope (p : ScopeId) (il : Bool) (b : ScopeId) (s : OptState) :
    ((newScope p il s).2).findScope b = s.findScope b := rfl

theorem child_ne_self : ∀ (p : ScopeId) (n : Nat) (l : Bool), ScopeId.child p n l ≠ p := by
  intro p
  induction p with
  | root => intro n l h; exact ScopeId.noConfusion h
  | child q m b ih =>
    intro n l h
    injection h with h1 h2 h3
    exact ih m b h1

theorem findScope_pushStmts_self (a : ScopeId) (l : List Stmt) (s : OptState) :
    (pushStmts a l s).findScope a =
      { s.findScope a with statements := (s.findScope a).statements ++ l } := by
  unfold pushStmts
  exact findScope_setScope_self _ _ _

theorem findScope_pushStmts_ne (a b : ScopeId) (l : List Stmt) (s : OptState)
    (h : b ≠ a) : (pushStmts a l s).findScope b = s.findScope b := by
  unfold pushStmts
  exact findScope_setScope_ne _ _ _ _ h

theorem findScope_setCurrent (a b : ScopeId) (s : OptState) :
    (setCurrent a s).findScope b = s.findScope b := rfl

theorem findScope_createHeader_ne (a b : ScopeId) (ty : CacheType) (s : OptState)
    (h : b ≠ a) : ((createHeader a ty s).2).findScope b = s.findScope b := by
  unfold createHeader
  cases ty <;> dsimp only <;> split
  · rfl
  · exact findScope_setScope_ne _ _ _ _ h
  · rfl
  · exact findScope_setScope_ne _ _ _ _ h

theorem findScope_createIndex_ne (a b : ScopeId) (ty : CacheType) (s : OptState)
    (h : b ≠ a) : ((createIndex a ty s).2).findScope b = s.findScope b := by
  unfold createIndex
  cases ty <;> dsimp only <;> exact findScope_setScope_ne _ _ _ _ h

theorem findScope_createLoopHeader_ne (a b : ScopeId) (ty : Option CacheType)
    (s : OptState) (h : b ≠ a) :
    ((createLoopHeader a ty s).2).findScope b = s.findScope b := by
  rcases ty with _ | t
  · unfold createLoopHeader
    dsimp only
    split
    · rfl
    · exact findScope_setScope_ne _ _ _ _ h
  · cases t <;>
      (unfold createLoopHeader
       dsimp only
       split
       · rfl
       · exact findScope_setScope_ne _ _ _ _ h)

theorem findScope_createLoopIndex_ne (a b : ScopeId) (s : OptState) (h : b ≠ a) :
    ((createLoopIndex a s).2).findScope b = s.findScope b := by
  unfold createLoopIndex
  dsimp only
  split
  · rfl
  · exact findScope_setScope_ne _ _ _ _ h

theorem findScope_getLoopMemoHeaderDeclaration_ne (a b : ScopeId) (s : OptState)
    (h : b ≠ a) :
    ((getLoopMemoHeaderDeclaration a s).2).findScope b = s.findScope b := by
  unfold getLoopMemoHeaderDeclaration
  dsimp only
  split
  · rw [findScope_createLoopHeader_ne _ _ _ _ h, findScope_genUid,
      findScope_createLoopIndex_ne _ _ _ h, findScope_createHeader_ne _ _ _ _ h]
  · rfl

theorem findScope_getLoopRefHeaderDeclaration_ne (a b : ScopeId) (s : OptState)
    (h : b ≠ a) :
    ((getLoopRefHeaderDeclaration a s).2).findScope b = s.findScope b := by
  unfold getLoopRefHeaderDeclaration
  dsimp only
  split
  · rw [findScope_createLoopHeader_ne _ _ _ _ h, findScope_genUid,
      findScope_createLoopIndex_ne _ _ _ h, findScope_createHeader_ne _ _ _ _ h]
  · rfl

theorem findScope_getStatements_inLoop_ne (p : ScopeId) (n : Nat) (b : ScopeId)
    (s : OptState) (h : b ≠ ScopeId.child p n true) :
    ((getStatements (ScopeId.child p n true) s).2).findScope b = s.findScope b := by
  unfold getStatements
  dsimp only [ScopeId.inLoop]
  simp only [reduceIte]
  rw [findScope_getLoopRefHeaderDeclaration_ne _ _ _ h,
    findScope_getLoopMemoHeaderDeclaration_ne _ _ _ h]

theorem createHeader_memo_spec (a : ScopeId) (s : OptState) :
    (((createHeader a .memo s).2).findScope a).memo = some (createHeader a .memo s).1
    ∧ (((createHeader a .memo s).2).findScope a).statements = (s.findScope a).statements
    ∧ (((createHeader a .memo s).2).findScope a).indecesMemo = (s.findScope a).indecesMemo := by
  unfold createHeader
  dsimp only
  split
  · rename_i r heq
    exact ⟨heq, rfl, rfl⟩
  · rw [findScope_setScope_self]
    exact ⟨rfl, rfl, rfl⟩

theorem fields_setScope (s : OptState) (a b : ScopeId) (m : ScopeMut) :
    (s.setScope a m).findScope b = if b = a then m else s.findScope b := by
  by_cases h : b = a
  · subst h; rw [findScope_setScope_self]; simp
  · rw [findScope_setScope_ne _ _ _ _ h]; simp [h]

theorem statements_setOptimized (a b : ScopeId) (k : Ident) (v : OptEx) (s : OptState) :
    ((setOptimized a k v s).findScope b).statements = (s.findScope b).statements := by
  unfold setOptimized
  by_cases h : b = a
  · subst h; rw [findScope_setScope_self]
  · rw [findScope_setScope_ne _ _ _ _ h]

theorem indecesMemo_setOptimized (a b : ScopeId) (k : Ident) (v : OptEx) (s : OptState) :
    ((setOptimized a k v s).findScope b).indecesMemo = (s.findScope b).indecesMemo := by
  unfold setOptimized
  by_cases h : b = a
  · subst h; rw [findScope_setScope_self]
  · rw [findScope_setScope_ne _ _ _ _ h]

theorem constants_setOptimized (a b : ScopeId) (k : Ident) (v : OptEx) (s : OptState) :
    ((setOptimized a k v s).findScope b).constants = (s.findScope b).constants := by
  unfold setOptimized
  by_cases h : b = a
  · subst h; rw [findScope_setScope_self]
  · rw [findScope_setScope_ne _ _ _ _ h]

theorem statements_addConstant (a b : ScopeId) (v : Ident) (s : OptState) :
    ((addConstant a v s).findScope b).statements = (s.findScope b).statements := by
  unfold addConstant
  dsimp only
  split
  · rfl
  · by_cases h : b = a
    · subst h; rw [findScope_setScope_self]
    · rw [findScope_setScope_ne _ _ _ _ h]

theorem indecesMemo_addConstant (a b : ScopeId) (v : Ident) (s : OptState) :
    ((addConstant a v s).findScope b).indecesMemo = (s.findScope b).indecesMemo := by
  unfold addConstant
  dsimp only
  split
  · rfl
  · by_cases h : b = a
    · subst h; rw [findScope_setScope_self]
    · rw [findScope_setScope_ne _ _ _ _ h]

theorem contains_addConstant_self (a : ScopeId) (v : Ident) (s : OptState) :
    ((addConstant a v s).findScope a).constants.contains v = true := by
  unfold addConstant
  dsimp only
  split
  · assumption
  · rw [findScope_setScope_self]
    simp [List.contains_cons]

theorem statements_createHeader (a b : ScopeId) (ty : CacheType) (s : OptState) :
    (((createHeader a ty s).2).findScope b).statements = (s.findScope b).statements := by
  unfold createHeader
  cases ty <;> dsimp only <;> split
  · rfl
  · by_cases h : b = a
    · subst h; rw [findScope_setScope_self]; rfl
    · rw [findScope_setScope_ne _ _ _ _ h]; rfl
  · rfl
  · by_cases h : b = a
    · subst h; rw [findScope_setScope_self]; rfl
    · rw [findScope_setScope_ne _ _ _ _ h]; rfl

theorem indecesMemo_createHeader (a b : ScopeId) (ty : CacheType) (s : OptState) :
    (((createHeader a ty s).2).findScope b).indecesMemo = (s.findScope b).indecesMemo := by
  unfold createHeader
  cases ty <;> dsimp only <;> split
  · rfl
  · by_cases h : b = a
    · subst h; rw [findScope_setScope_self]; rfl
    · rw [findScope_setScope_ne _ _ _ _ h]; rfl
  · rfl
  · by_cases h : b = a
    · subst h; rw [findScope_setScope_self]; rfl
    · rw [findScope_setScope_ne _ _ _ _ h]; rfl

theorem constants_createHeader (a b : ScopeId) (ty : CacheType) (s : OptState) :
    (((createHeader a ty s).2).findScope b).constants = (s.findScope b).constants := by
  unfold createHeader
  cases ty <;> dsimp only <;> split
  · rfl
  · by_cases h : b = a
    · subst h; rw [findScope_setScope_self]; rfl
    · rw [findScope_setScope_ne _ _ _ _ h]; rfl
  · rfl
  · by_cases h : b = a
    · subst h; rw [findScope_setScope_self]; rfl
    · rw [findScope_setScope_ne _ _ _ _ h]; rfl

theorem statements_createLoopHeader (a b : ScopeId) (ty : Option CacheType) (s : OptState) :
    (((createLoopHeader a ty s).2).findScope b).statements = (s.findScope b).statements := by
  unfold createLoopHeader
  dsimp only
  split
  · rfl
  · by_cases h : b = a
    · subst h
      rw [findScope_setScope_self]
      rcases ty with _ | t
      · rfl
      · cases t <;> rfl
    · rw [findScope_setScope_ne _ _ _ _ h]; rfl

theorem indecesMemo_createLoopHeader (a b : ScopeId) (ty : Option CacheType) (s : OptState) :
    (((createLoopHeader a ty s).2).findScope b).indecesMemo = (s.findScope b).indecesMemo := by
  unfold createLoopHeader
  dsimp only
  split
  · rfl
  · by_cases h : b = a
    · subst h
      rw [findScope_setScope_self]
      rcases ty with _ | t
      · rfl
      · cases t <;> rfl
    · rw [findScope_setScope_ne _ _ _ _ h]; rfl

theorem constants_createLoopHeader (a b : ScopeId) (ty : Option CacheType) (s : OptState) :
    (((createLoopHeader a ty s).2).findScope b).constants = (s.findScope b).constants := by
  unfold createLoopHeader
  dsimp only
  split
  · rfl
  · by_cases h : b = a
    · subst h
      rw [findScope_setScope_self]
      rcases ty with _ | t
      · rfl
      · cases t <;> rfl
    · rw [findScope_setScope_ne _ _ _ _ h]; rfl

theorem loopMemo_createLoopHeader_none (a b : ScopeId) (s : OptState) :
    (((createLoopHeader a none s).2).findScope b).loopMemo = (s.findScope b).loopMemo := by
  unfold createLoopHeader
  dsimp only
  split
  · rfl
  · by_cases h : b = a
    · subst h; rw [findScope_setScope_self]; rfl
    · rw [findScope_setScope_ne _ _ _ _ h]; rfl

theorem statements_createMemoHeader (b : ScopeId) (ty : CacheType) (s : OptState) :
    (((createMemoHeader ty s).2).findScope b).statements = (s.findScope b).statements := by
  unfold createMemoHeader
  split
  · exact statements_createLoopHeader _ _ _ _
  · exact statements_createHeader _ _ _ _

theorem indecesMemo_createMemoHeader (b : ScopeId) (ty : CacheType) (s : OptState) :
    (((createMemoHeader ty s).2).findScope b).indecesMemo = (s.findScope b).indecesMemo := by
  unfold createMemoHeader
  split
  · exact indecesMemo_createLoopHeader _ _ _ _
  · exact indecesMemo_createHeader _ _ _ _

theorem constants_createMemoHeader (b : ScopeId) (ty : CacheType) (s : OptState) :
    (((createMemoHeader ty s).2).findScope b).constants = (s.findScope b).constants := by
  unfold createMemoHeader
  split
  · exact constants_createLoopHeader _ _ _ _
  · exact constants_createHeader _ _ _ _

theorem statements_createIndex (a b : ScopeId) (ty : CacheType) (s : OptState) :
    (((createIndex a ty s).2).findScope b).statements = (s.findScope b).statements := by
  unfold createIndex
  cases ty <;> dsimp only <;> by_cases h : b = a
  · subst h; rw [findScope_setScope_self]
  · rw [findScope_setScope_ne _ _ _ _ h]
  · subst h; rw [findScope_setScope_self]
  · rw [findScope_setScope_ne _ _ _ _ h]

theorem constants_createIndex (a b : ScopeId) (ty : CacheType) (s : OptState) :
    (((createIndex a ty s).2).findScope b).constants = (s.findScope b).constants := by
  unfold createIndex
  cases ty <;> dsimp only <;> by_cases h : b = a
  · subst h; rw [findScope_setScope_self]
  · rw [findScope_setScope_ne _ _ _ _ h]
  · subst h; rw [findScope_setScope_self]
  · rw [findScope_setScope_ne _ _ _ _ h]

theorem indecesMemo_createIndex_memo (a : ScopeId) (s : OptState) :
    (((createIndex a .memo s).2).findScope a).indecesMemo
      = (s.findScope a).indecesMemo + 1 := by
  unfold createIndex
  dsimp only
  rw [findScope_setScope_self]

theorem createIndex_memo_fst (a : ScopeId) (s : OptState) :
    (createIndex a .memo s).1 = (s.findScope a).indecesMemo := rfl

theorem current_deleteOptimized (a : ScopeId) (k : Ident) (s : OptState) :
    (deleteOptimized a k s).current = s.current := by
  induction a with
  | root =>
    unfold deleteOptimized
    dsimp only
    split
    · rfl
    · rfl
  | child p n l ih =>
    unfold deleteOptimized
    dsimp only
    split
    · rfl
    · exact ih

theorem indecesMemo_deleteOptimized (a b : ScopeId) (k : Ident) (s : OptState) :
    ((deleteOptimized a k s).findScope b).indecesMemo = (s.findScope b).indecesMemo := by
  induction a with
  | root =>
    unfold deleteOptimized
    dsimp only
    split
    · by_cases h : b = ScopeId.root
      · subst h; rw [findScope_setScope_self]
      · rw [findScope_setScope_ne _ _ _ _ h]
    · rfl
  | child p n l ih =>
    unfold deleteOptimized
    dsimp only
    split
    · by_cases h : b = ScopeId.child p n l
      · subst h; rw [findScope_setScope_self]
      · rw [findScope_setScope_ne _ _ _ _ h]
    · exact ih

theorem assocFind_eq_none_of_not_mem {α β : Type} [DecidableEq α] (k : α)
    (l : List (α × β)) (h : k ∉ l.map Prod.fst) : assocFind k l = none := by
  induction l with
  | nil => rfl
  | cons p rest ih =>
    obtain ⟨a, v⟩ := p
    simp only [List.map_cons, List.mem_cons] at h
    push_neg at h
    unfold assocFind
    rw [if_neg (fun hh => h.1 hh.symm)]
    exact ih h.2

theorem assocFind_assocErase_self {α β : Type} [DecidableEq α] (k : α)
    (l : List (α × β)) (hnd : (l.map Prod.fst).Nodup) :
    assocFind k (assocErase k l) = none := by
  induction l with
  | nil => rfl
  | cons p rest ih =>
    obtain ⟨a, v⟩ := p
    simp only [List.map_cons, List.nodup_cons] at hnd
    unfold assocErase
    by_cases h : a = k
    · subst h
      rw [if_pos rfl]
      exact assocFind_eq_none_of_not_mem _ _ hnd.1
    · rw [if_neg h]
      unfold assocFind
      rw [if_neg h]
      exact ih hnd.2

theorem createHeader_fst_fresh_memo (a : ScopeId) (s : OptState)
    (hm : (s.findScope a).memo = none) :
    (createHeader a .memo s).1 = Ident.gen "cache" s.uid := by
  unfold createHeader
  dsimp only
  rw [hm]
  rfl

theorem createHeader_fst_fresh_ref (a : ScopeId) (s : OptState)
    (hr : (s.findScope a).ref = none) :
    (createHeader a .ref s).1 = Ident.gen "ref" s.uid := by
  unfold createHeader
  dsimp only
  rw [hr]
  rfl

theorem ref_createHeader_memo (a b : ScopeId) (s : OptState) :
    (((createHeader a .memo s).2).findScope b).ref = (s.findScope b).ref := by
  unfold createHeader
  dsimp only
  split
  · rfl
  · by_cases h : b = a
    · subst h; rw [findScope_setScope_self]; rfl
    · rw [findScope_setScope_ne _ _ _ _ h]; rfl

theorem getOptimized_deleteOptimized_self (a : ScopeId) (k : Ident) (s : OptState)
    (hheld : (assocFind k ((s.findScope a).optimizedID)).isSome = true)
    (hnd : (((s.findScope a).optimizedID).map Prod.fst).Nodup) :
    getOptimized (deleteOptimized a k s) a k = none := by
  cases a <;>
  · unfold deleteOptimized
    dsimp only
    rw [if_pos hheld]
    unfold getOptimized
    rw [findScope_setScope_self]
    exact assocFind_assocErase_self _ _ hnd

theorem booleanish_aux : ∀ (n : Nat) (l : Expr), parenDepth l ≤ n →
    isBooleanishLiteral (unwrapExpr l) = false → getBooleanishState l = .indeterminate := by
  intro n
  induction n with
  | zero =>
    intro l h hb
    cases l with
    | paren e => exact absurd h (by simp only [parenDepth]; omega)
    | bool b => exact absurd hb (by simp [unwrapExpr, isBooleanishLiteral])
    | num k => exact absurd hb (by simp [unwrapExpr, isBooleanishLiteral])
    | nullL => exact absurd hb (by simp [unwrapExpr, isBooleanishLiteral])
    | str v => exact absurd hb (by simp [unwrapExpr, isBooleanishLiteral])
    | bigint v => exact absurd hb (by simp [unwrapExpr, isBooleanishLiteral])
    | ident i => rfl
    | member o p c => rfl
    | binary op a c => rfl
    | logical op a c => rfl
    | cond t a c => rfl
    | unary op a => rfl
    | update op p a => rfl
    | call f args => rfl
    | assign op a c => rfl
  | succ n ih =>
    intro l h hb
    cases l with
    | paren e =>
      show getBooleanishState e = .indeterminate
      exact ih e (by simp only [parenDepth] at h; omega) hb
    | bool b => exact absurd hb (by simp [unwrapExpr, isBooleanishLiteral])
    | num k => exact absurd hb (by simp [unwrapExpr, isBooleanishLiteral])
    | nullL => exact absurd hb (by simp [unwrapExpr, isBooleanishLiteral])
    | str v => exact absurd hb (by simp [unwrapExpr, isBooleanishLiteral])
    | bigint v => exact absurd hb (by simp [unwrapExpr, isBooleanishLiteral])
    | ident i => rfl
    | member o p c => rfl
    | binary op a c => rfl
    | logical op a c => rfl
    | cond t a c => rfl
    | unary op a => rfl
    | update op p a => rfl
    | call f args => rfl
    | assign op a c => rfl

set_option maxHeartbeats 1000000 in
/-- C1 (refuted): in the loop scenario `while (c) { y + 1; }` the rewritten
loop body's first statement is not the per-iteration header declaration (no
`++loopIdx` initializer); the guard inside the body indexes the cache through
the identifier `loop0`, yet no statement of the output declares `loop0`
although the output uses it; the enclosing loop memo declaration is emitted.
Universally, the argument-less `createLoopHeader()` call of `createMemo`
never writes `loop.memo`, and `getLoopMemoHeaderDeclaration` returns nothing
whenever `loop.memo` is unset, so the per-iteration header declaration is
never produced. -/
theorem c1_per_iteration_loop_header_missing :
    (whileBodyFirst loopOutput).map stmtHasUpdateInit = some false
    ∧ (whileBodyFirst loopOutput).map guardHeaderIdentOfStmt
        = some (some (.gen "loop" 0))
    ∧ stmtsDeclare (.gen "loop" 0) loopOutput = false
    ∧ stmtListUses (.gen "loop" 0) loopOutput = true
    ∧ loopOutput.any stmtHasBranchSizeZeroInit = true
    ∧ (∀ (a b : ScopeId) (s : OptState),
        (((createLoopHeader a none s).2).findScope b).loopMemo
          = (s.findScope b).loopMemo)
    ∧ (∀ (a : ScopeId) (s : OptState), (s.findScope a).loopMemo = none →
        (getLoopMemoHeaderDeclaration a s).1 = none) := by
  refine ⟨by decide, by decide, by decide, by decide, by decide,
    loopMemo_createLoopHeader_none, ?_⟩
  intro a s h
  unfold getLoopMemoHeaderDeclaration
  rw [h]
  rfl

/-- C2 (corrected): inside a loop-body scope `createMemo`'s header selection
ignores the requested cache kind — the memo-kind and ref-kind selections are
the same call, so both kinds share one header identifier, as the concrete
loop-scope run shows (both emitted guards index through `loop0`).  Outside
loops the kinds use `createHeader`, and freshly created memo and ref headers
are distinct identifiers. -/
theorem c2_loop_scope_shares_one_header :
    (∀ s : OptState, s.current.inLoop = true →
        createMemoHeader .memo s = createMemoHeader .ref s)
    ∧ (∀ (s : OptState) (ty : CacheType), s.current.inLoop = false →
        createMemoHeader ty s = createHeader s.current ty s)
    ∧ (∀ s : OptState, (s.findScope s.current).memo = none →
        (s.findScope s.current).ref = none →
        (createHeader s.current .memo s).1
          ≠ (createHeader s.current .ref ((createHeader s.current .memo s).2)).1)
    ∧ loopMixStatements.map guardHeaderIdentOfStmt
        = [some (.gen "loop" 0), some (.gen "loop" 0)] := by
  refine ⟨?_, ?_, ?_, by decide⟩
  · intro s h
    unfold createMemoHeader
    rw [h]
    rfl
  · intro s ty h
    unfold createMemoHeader
    rw [h]
    rfl
  · intro s hm hr heq
    rw [createHeader_fst_fresh_memo _ _ hm,
      createHeader_fst_fresh_ref _ _ (by rw [ref_createHeader_memo]; exact hr)] at heq
    injection heq with h1 h2
    exact absurd h1 (by decide)

/-- C3 (refuted): a skip-marked statement is not emitted at all — the
optimizer returns before `this.scope.push`, leaving the state untouched, so
the statement is dropped from the output; concretely, a component whose body
is one skip-marked statement is rewritten to an empty body. -/
theorem c3_skip_marked_statement_dropped :
    (∀ (fuel : Nat) (ctx : Ctx) (stmt : Stmt) (tb : Bool) (s : OptState),
        stmt.skipMark = true → optimizeStatement (fuel + 1) ctx stmt tb s = ((), s))
    ∧ runComponent 10 {} skipInput = []
    ∧ skipInput ≠ []
    ∧ skipInput.all Stmt.skipMark = true := by
  refine ⟨?_, rfl, by simp [skipInput], rfl⟩
  intro fuel ctx stmt tb s h
  cases stmt <;>
  · dsimp only [Stmt.skipMark] at h
    subst h
    rfl

/-- C4 (corrected): an expression classified as constant can consume a memo
slot: the identifier `f`, a foreign-binding read and hence constant, leaves
the root scope's memo slot counter at 1 after `optimizeExpression`.  In
general, the one-time path `createMemo(expr, true)` always consumes exactly
one memo slot of the current scope. -/
theorem c4_constant_expression_consumes_slot :
    isConstantSpec foreignCtx {} (.ident (.src "f" 7)) = true
    ∧ (((optimizeExpression 5 foreignCtx (.ident (.src "f" 7)) {}).2).findScope
        .root).indecesMemo = 1
    ∧ (∀ (e : Expr) (s : OptState), memoFastPath e s = none →
        (((createMemo e .tru .memo s).2).findScope s.current).indecesMemo
          = (s.findScope s.current).indecesMemo + 1) := by
  refine ⟨rfl, rfl, ?_⟩
  intro e s hfast
  cases e <;>
  · simp only [createMemo]
    rw [hfast]
    dsimp only [memoCondition]
    rw [findScope_pushStmts_self]
    dsimp only
    simp only [indecesMemo_setOptimized, indecesMemo_addConstant, findScope_genUid,
      indecesMemo_createIndex_memo, indecesMemo_createMemoHeader]
    try rfl

/-- C5 (corrected): with dependencies omitted or `false`, `createMemo` emits
the two-declarator `let eq = equals(header, i, expr), v = eq ? header[i] :
(header[i] = expr)` declaration — the guard is the `equals` call.  With an
empty dependency list the fold yields no condition, so no `equals` guard is
emitted: the declaration is the guard-free one-time
`let v = i in header ? header[i] : (header[i] = expr)` form. -/
theorem c5_falsy_dependencies_equals_guard (current : Expr) (dep : Deps)
    (ty : CacheType) (s : OptState)
    (hdep : dep = Deps.omitted ∨ dep = Deps.fls)
    (hfast : memoFastPath current s = none) :
    (∃ X eqId vid hdr i,
      (((createMemo current dep ty s).2).findScope s.current).statements
        = X ++ [.varDecl false .klet
            [(eqId, some (.call (.ident (.imported "equals"))
                [.ident hdr, .num i, current])),
             (vid, some (.cond (.ident eqId)
                (.member (.ident hdr) (.num i) true)
                (.assign "=" (.member (.ident hdr) (.num i) true) current)))]])
    ∧ (∃ X vid hdr i,
      (((createMemo current (.list []) ty s).2).findScope s.current).statements
        = X ++ [.varDecl false .klet
            [(vid, some (.cond (.binary "in" (.num i) (.ident hdr))
                (.member (.ident hdr) (.num i) true)
                (.assign "=" (.member (.ident hdr) (.num i) true) current)))]]) := by
  constructor
  · rcases hdep with rfl | rfl <;>
    · simp only [createMemo]
      rw [hfast]
      dsimp only [memoCondition]
      rw [findScope_pushStmts_self]
      dsimp only
      exact ⟨_, _, _, _, _, rfl⟩
  · simp only [createMemo]
    rw [hfast]
    dsimp only [memoCondition, foldDeps, List.foldl]
    rw [findScope_pushStmts_self]
    dsimp only
    exact ⟨_, _, _, _, rfl⟩

/-- C6 (confirmed): with dependencies `true`, `createMemo` pushes exactly one
declaration — the guard-free `let v = i in header ? header[i] :
(header[i] = expr)` one-time form — into the current scope, registers the
fresh `v` in the scope's constants set, and returns `v` as the optimized
expression. -/
theorem c6_one_time_constant_declaration (current : Expr) (ty : CacheType)
    (s : OptState) (hfast : memoFastPath current s = none) :
    ∃ hdr i vid,
      (((createMemo current .tru ty s).2).findScope s.current).statements
        = (s.findScope s.current).statements
          ++ [.varDecl false .klet
              [(vid, some (.cond (.binary "in" (.num i) (.ident hdr))
                  (.member (.ident hdr) (.num i) true)
                  (.assign "=" (.member (.ident hdr) (.num i) true) current)))]]
      ∧ (((createMemo current .tru ty s).2).findScope s.current).constants.contains vid
          = true
      ∧ (createMemo current .tru ty s).1.expr = .ident vid := by
  cases current <;>
  · simp only [createMemo]
    rw [hfast]
    dsimp only [memoCondition]
    rw [findScope_pushStmts_self]
    dsimp only
    simp only [statements_setOptimized, statements_addConstant, findScope_genUid,
      statements_createIndex, statements_createMemoHeader, List.nil_append]
    try simp only [constants_setOptimized]
    exact ⟨_, _, _, rfl, contains_addConstant_self _ _ _, rfl⟩

/-- C7 (confirmed): `optimizeLVal` on an identifier with `dirty` removes the
binding's entry from the optimized table (walking from the current scope), so
the binding no longer resolves there, and re-memoizing the identifier
afterwards takes the slow path: it allocates a fresh memo slot, bumping the
current scope's slot counter. -/
theorem c7_dirty_lval_invalidates_binding (fuel : Nat) (ctx : Ctx) (id b : Ident)
    (s : OptState)
    (hb : lookupBinding ctx id.name = some b)
    (hfb : isForeignBinding ctx id.name = false)
    (hheld : (assocFind b ((s.findScope s.current).optimizedID)).isSome = true)
    (hnd : (((s.findScope s.current).optimizedID).map Prod.fst).Nodup) :
    getOptimized ((optimizeLVal (fuel + 1) ctx (.ident id) true s).2) s.current b = none
    ∧ (((memoizeIdentifier ctx id
          ((optimizeLVal (fuel + 1) ctx (.ident id) true s).2)).2).findScope
        s.current).indecesMemo
      = (s.findScope s.current).indecesMemo + 1 := by
  have h1 : (optimizeLVal (fuel + 1) ctx (.ident id) true s).2
      = match lookupBinding ctx id.name with
        | some binding => deleteOptimized s.current binding s
        | none => s := rfl
  rw [hb] at h1
  have hnone : getOptimized (deleteOptimized s.current b s) s.current b = none :=
    getOptimized_deleteOptimized_self _ _ _ hheld hnd
  have hcur : (deleteOptimized s.current b s).current = s.current :=
    current_deleteOptimized _ _ _
  constructor
  · rw [h1]
    exact hnone
  · rw [h1]
    unfold memoizeIdentifier
    rw [hfb]
    rw [if_neg Bool.false_ne_true]
    rw [hb]
    dsimp only
    simp only [createMemo]
    dsimp only [memoFastPath]
    rw [hcur, hnone]
    dsimp only [memoCondition]
    rw [findScope_pushStmts_self]
    dsimp only
    simp only [indecesMemo_setOptimized, indecesMemo_addConstant, findScope_genUid,
      indecesMemo_createIndex_memo, indecesMemo_createMemoHeader,
      indecesMemo_deleteOptimized]

/-- C8 (confirmed): the simplifier's logical-expression rewrite: a nullish
left operand keeps the right side exactly for `??`, a falsy one exactly for
`||`, a truthy one exactly for `&&` (otherwise the left side is kept), an
indeterminate left operand leaves the node unchanged, and any left operand
that is not one of the five literal kinds under the nesting wrappers is
indeterminate. -/
theorem c8_simplifier_logical_rewrite :
    (∀ (op : LogicalOp) (l r : Expr), getBooleanishState l = .nullish →
        simplifyLogical (.logical op l r) = if op = .nullishOp then r else l)
    ∧ (∀ (op : LogicalOp) (l r : Expr), getBooleanishState l = .falsy →
        simplifyLogical (.logical op l r) = if op = .orOp then r else l)
    ∧ (∀ (op : LogicalOp) (l r : Expr), getBooleanishState l = .truthy →
        simplifyLogical (.logical op l r) = if op = .andOp then r else l)
    ∧ (∀ (op : LogicalOp) (l r : Expr), getBooleanishState l = .indeterminate →
        simplifyLogical (.logical op l r) = .logical op l r)
    ∧ (∀ l : Expr, isBooleanishLiteral (unwrapExpr l) = false →
        getBooleanishState l = .indeterminate) := by
  refine ⟨?_, ?_, ?_, ?_, fun l h => booleanish_aux (parenDepth l) l le_rfl h⟩ <;>
    (intro op l r h
     unfold simplifyLogical
     dsimp only
     rw [h]
     try rfl)

/-- C10 (confirmed): the optimized-identifier de-duplication is per-scope: a
hit in the current scope's own table short-circuits `createMemo` with the
recorded expression and an unchanged state, while the same binding looked up
while another scope is current — one whose own table lacks it, e.g. any fresh
child scope — misses the fast path and allocates a fresh slot there. -/
theorem c10_memoization_is_per_scope (b : Ident) (o : OptEx) (a : ScopeId)
    (s : OptState)
    (hp : getOptimized s s.current b = some o)
    (ha : getOptimized s a b = none) :
    createMemo (.ident b) .fls .memo s = (o, s)
    ∧ (((createMemo (.ident b) .fls .memo (setCurrent a s)).2).findScope a).indecesMemo
        = (s.findScope a).indecesMemo + 1 := by
  constructor
  · simp only [createMemo]
    dsimp only [memoFastPath]
    rw [hp]
  · simp only [createMemo]
    dsimp only [memoFastPath, setCurrent]
    rw [show getOptimized { s with current := a } a b = getOptimized s a b from rfl]
    rw [ha]
    dsimp only [memoCondition]
    rw [findScope_pushStmts_self]
    dsimp only
    simp only [indecesMemo_setOptimized, indecesMemo_addConstant, findScope_genUid,
      indecesMemo_createIndex_memo, indecesMemo_createMemoHeader]
    try rfl

set_option maxHeartbeats 2000000 in
/-- C9: for both rewritten loop forms the loop memo declaration
`let hdr = branch(ph, i, 0), idx = 0` is pushed into the enclosing scope
right before the rewritten loop, unconditionally; the enclosing scope's memo
header is forced into existence and one of its memo slots is consumed. -/
theorem c9_loop_memo_declaration_unconditional (fuel : Nat) (ctx : Ctx)
    (s : OptState) (test right : Expr) (body : Stmt) (tb : Bool) (kind : VKind)
    (left : Ident) :
    (∃ Y ph i hdr idxId bstmts,
      (((optimizeStatement (fuel + 1) ctx (.whileS false test body) tb s).2).findScope
          s.current).statements =
        Y ++ [.varDecl false .klet
                [(hdr, some (.call (.ident (.imported "branch"))
                    [.ident ph, .num i, .num 0])),
                 (idxId, some (.num 0))],
              .whileS false test (.block false bstmts)]
      ∧ (((optimizeStatement (fuel + 1) ctx (.whileS false test body) tb s).2).findScope
          s.current).memo = some ph
      ∧ (((optimizeStatement (fuel + 1) ctx (.whileS false test body) tb s).2).findScope
          s.current).indecesMemo = i + 1)
    ∧ (∃ Y ph i hdr idxId bstmts r',
      (((optimizeStatement (fuel + 1) ctx (.forOf false kind left right body) tb
            s).2).findScope ((optimizeExpression fuel ctx right s).2).current).statements =
        Y ++ [.varDecl false .klet
                [(hdr, some (.call (.ident (.imported "branch"))
                    [.ident ph, .num i, .num 0])),
                 (idxId, some (.num 0))],
              .forOf false kind left r' (.block false bstmts)]
      ∧ (((optimizeStatement (fuel + 1) ctx (.forOf false kind left right body) tb
            s).2).findScope ((optimizeExpression fuel ctx right s).2).current).memo
          = some ph
      ∧ (((optimizeStatement (fuel + 1) ctx (.forOf false kind left right body) tb
            s).2).findScope
          ((optimizeExpression fuel ctx right s).2).current).indecesMemo = i + 1) := by
  constructor
  · have hne : s.current ≠ ScopeId.child s.current s.birth true :=
      fun h => child_ne_self s.current s.birth true h.symm
    rw [optimizeStatement]
    dsimp only [Stmt.skipMark]
    rw [if_neg Bool.false_ne_true]
    simp only [newScope_fst]
    unfold getLoopMemoDeclaration
    dsimp only [ScopeId.parentOf]
    rw [findScope_pushStmts_self]
    dsimp only
    rw [findScope_pushStmts_self]
    dsimp only
    rw [findScope_createHeader_ne _ _ _ _ hne]
    rw [findScope_createLoopIndex_ne _ _ _ hne]
    simp only [createIndex]
    try dsimp only
    rw [findScope_setScope_self]
    try dsimp only
    rw [(createHeader_memo_spec s.current _).1, (createHeader_memo_spec s.current _).2.1]
    rw [findScope_getStatements_inLoop_ne _ _ _ _ hne]
    rw [findScope_setCurrent]
    simp only [List.append_assoc, List.singleton_append]
    exact ⟨_, _, _, _, _, _, rfl, rfl, rfl⟩
  · have hne : ((optimizeExpression fuel ctx right s).2).current
        ≠ ScopeId.child ((optimizeExpression fuel ctx right s).2).current
            ((optimizeExpression fuel ctx right s).2).birth true :=
      fun h => child_ne_self _ _ _ h.symm
    rw [optimizeStatement]
    dsimp only [Stmt.skipMark]
    rw [if_neg Bool.false_ne_true]
    simp only [newScope_fst]
    unfold getLoopMemoDeclaration
    dsimp only [ScopeId.parentOf]
    rw [findScope_pushStmts_self]
    dsimp only
    rw [findScope_pushStmts_self]
    dsimp only
    rw [findScope_createHeader_ne _ _ _ _ hne]
    rw [findScope_createLoopIndex_ne _ _ _ hne]
    simp only [createIndex]
    try dsimp only
    rw [findScope_setScope_self]
    try dsimp only
    rw [(createHeader_memo_spec _ _).1, (createHeader_memo_spec _ _).2.1]
    rw [findScope_getStatements_inLoop_ne _ _ _ _ hne]
    rw [findScope_setCurrent]
    simp only [List.append_assoc, List.singleton_append]
    exact ⟨_, _, _, _, _, _, _, rfl, rfl, rfl⟩

/-- Witness for C5 at `current = 5`, omitted dependencies, memo kind, initial
state. -/
theorem c5_falsy_dependencies_equals_guard_witness :
    ((Deps.omitted = Deps.omitted ∨ Deps.omitted = Deps.fls)
      ∧ memoFastPath (.num 5) {} = none)
    ∧ ((∃ X eqId vid hdr i,
      (((createMemo (.num 5) .omitted .memo {}).2).findScope
          (OptState.current {})).statements
        = X ++ [.varDecl false .klet
            [(eqId, some (.call (.ident (.imported "equals"))
                [.ident hdr, .num i, .num 5])),
             (vid, some (.cond (.ident eqId)
                (.member (.ident hdr) (.num i) true)
                (.assign "=" (.member (.ident hdr) (.num i) true) (.num 5))))]])
    ∧ (∃ X vid hdr i,
      (((createMemo (.num 5) (.list []) .memo {}).2).findScope
          (OptState.current {})).statements
        = X ++ [.varDecl false .klet
            [(vid, some (.cond (.binary "in" (.num i) (.ident hdr))
                (.member (.ident hdr) (.num i) true)
                (.assign "=" (.member (.ident hdr) (.num i) true) (.num 5))))]])) :=
  ⟨⟨Or.inl rfl, rfl⟩,
    c5_falsy_dependencies_equals_guard (.num 5) .omitted .memo {} (Or.inl rfl) rfl⟩

/-- Witness for C6 at `current = 7`, memo kind, initial state. -/
theorem c6_one_time_constant_declaration_witness :
    (memoFastPath (.num 7) {} = none)
    ∧ (∃ hdr i vid,
      (((createMemo (.num 7) .tru .memo {}).2).findScope
          (OptState.current {})).statements
        = ((OptState.findScope {} (OptState.current {})).statements)
          ++ [.varDecl false .klet
              [(vid, some (.cond (.binary "in" (.num i) (.ident hdr))
                  (.member (.ident hdr) (.num i) true)
                  (.assign "=" (.member (.ident hdr) (.num i) true) (.num 7))))]]
      ∧ (((createMemo (.num 7) .tru .memo {}).2).findScope
          (OptState.current {})).constants.contains vid = true
      ∧ (createMemo (.num 7) .tru .memo {}).1.expr = .ident vid) :=
  ⟨rfl, c6_one_time_constant_declaration (.num 7) .memo {} rfl⟩

/-- Witness for C7: binding `x`, held in the root scope's optimized table. -/
theorem c7_dirty_lval_invalidates_binding_witness :
    (lookupBinding dirtyCtx (Ident.name (.src "x" 1)) = some (.src "x" 0)
      ∧ isForeignBinding dirtyCtx (Ident.name (.src "x" 1)) = false
      ∧ (assocFind (Ident.src "x" 0)
          ((heldState.findScope heldState.current).optimizedID)).isSome = true
      ∧ (((heldState.findScope heldState.current).optimizedID).map Prod.fst).Nodup)
    ∧ (getOptimized ((optimizeLVal (3 + 1) dirtyCtx (.ident (.src "x" 1)) true
          heldState).2) heldState.current (.src "x" 0) = none
      ∧ (((memoizeIdentifier dirtyCtx (.src "x" 1)
            ((optimizeLVal (3 + 1) dirtyCtx (.ident (.src "x" 1)) true
              heldState).2)).2).findScope heldState.current).indecesMemo
          = (heldState.findScope heldState.current).indecesMemo + 1) :=
  ⟨⟨rfl, rfl, rfl, by decide⟩,
    c7_dirty_lval_invalidates_binding 3 dirtyCtx (.src "x" 1) (.src "x" 0) heldState
      rfl rfl rfl (by decide)⟩

/-- Witness for C10: binding `x` held at the root scope, missed in a fresh
child scope. -/
theorem c10_memoization_is_per_scope_witness :
    (getOptimized heldState heldState.current (.src "x" 0) = some { expr := .num 1 }
      ∧ getOptimized heldState (.child .root 0 false) (.src "x" 0) = none)
    ∧ (createMemo (.ident (.src "x" 0)) .fls .memo heldState = ({ expr := .num 1 }, heldState)
      ∧ (((createMemo (.ident (.src "x" 0)) .fls .memo
            (setCurrent (.child .root 0 false) heldState)).2).findScope
          (.child .root 0 false)).indecesMemo
        = (heldState.findScope (.child .root 0 false)).indecesMemo + 1) :=
  ⟨⟨rfl, rfl⟩,
    c10_memoization_is_per_scope (.src "x" 0) { expr := .num 1 } (.child .root 0 false)
      heldState rfl rfl⟩

/-- Counterexample for C2: in a loop-body scope the memo-kind and ref-kind
header selections of `createMemo` are the very same call, and the two guards
emitted by a memo-kind and then a ref-kind `createMemo` both index the cache
through the single header `loop0`. -/
theorem c2_loop_scope_shares_one_header_counterexample :
    createMemoHeader .memo sampleLoopState = createMemoHeader .ref sampleLoopState
    ∧ loopMixStatements.map guardHeaderIdentOfStmt
        = [some (.gen "loop" 0), some (.gen "loop" 0)] :=
  ⟨rfl, by decide⟩

/-- Counterexample for C4: the identifier `f` is a foreign-binding read —
a constant expression — yet optimizing it leaves the root scope's memo slot
counter at 1: a slot was consumed on its behalf. -/
theorem c4_constant_expression_consumes_slot_counterexample :
    isConstantSpec foreignCtx {} (.ident (.src "f" 7)) = true
    ∧ (((optimizeExpression 5 foreignCtx (.ident (.src "f" 7)) {}).2).findScope
        .root).indecesMemo = 1 :=
  ⟨rfl, rfl⟩

/-- Counterexample for C5: `createMemo` with an empty dependency list emits
the guard-free one-time declaration — its initializer tests `0 in cache0` —
not an `equals(header, i, expr)` guard. -/
theorem c5_falsy_dependencies_equals_guard_counterexample :
    (((createMemo (.num 3) (.list []) .memo {}).2).findScope
        (OptState.current {})).statements
      = [.varDecl false .klet [((.gen "value" 1),
          some (.cond (.binary "in" (.num 0) (.ident (.gen "cache" 0)))
            (.member (.ident (.gen "cache" 0)) (.num 0) true)
            (.assign "=" (.member (.ident (.gen "cache" 0)) (.num 0) true)
              (.num 3))))]] := rfl
